import Mathlib

/-!
Verification of the job orchestration and streaming-execution subsystem of the
TrentApps Assistant backend (src/app.py), by a shallow embedding in Lean 4.

The embedding models the decoded JSON values that the Python code manipulates
as an inductive `Json` type, external library calls (`json.loads`,
`subprocess.run`, the supervisor HTTP call) as explicit inputs, and the
functions `is_permission_request`, `generate_completion_summary`,
`add_notification`, `run_claude_code`, `execute_claude`, `approve_job` and the
approval-wait loop of `stream_claude` as Lean functions over those inputs.
Timestamps, uuids and log output are not modelled; they do not affect any of
the properties proved here.
-/

namespace Assistant

/-- A decoded JSON value, as produced by Python json.loads.  Numbers are
modelled as integers: no code path or claim in this development inspects a
fractional value.  Object fields are an association list; objects decoded from
JSON have distinct keys (Python keeps the last duplicate). -/
inductive Json where
  | null : Json
  | bool : Bool → Json
  | num : Int → Json
  | str : String → Json
  | arr : List Json → Json
  | obj : List (String × Json) → Json

/-- First binding of a key in an object field list (field lists coming from
json.loads have distinct keys, so the first binding is the binding). -/
def lookupField : List (String × Json) → String → Option Json
  | [], _ => none
  | (k, v) :: rest, key => if k = key then some v else lookupField rest key

/-- Python dict.get(key): the bound value, or none when the key is absent.
A non-dict receiver raises AttributeError in Python; such receivers are not
reached on the paths the claims exercise, and are mapped to none here. -/
def Json.getField : Json → String → Option Json
  | .obj fields, key => lookupField fields key
  | _, _ => none

/-- Python dict.get(key, default) with an arbitrary default value. -/
def jGetD (j : Json) (key : String) (d : Json) : Json :=
  (j.getField key).getD d

/-- Python dict.get(key, default) where the call sites use the value as a
string.  A bound non-string value is mapped to the default: at every call site
in app.py the value is either compared to a string literal (the comparison is
False in Python for a non-string) or fed to a string method on a path no claim
exercises. -/
def jGetStr (j : Json) (key : String) (d : String) : String :=
  match j.getField key with
  | some (.str s) => s
  | _ => d

/-- Python dict.get(key, []) at the call sites that iterate the result.
A bound non-list value would be iterated element-wise by Python (or raise);
those malformed shapes are mapped to the empty list here and are not exercised
by any claim. -/
def jGetArr (j : Json) (key : String) : List Json :=
  match j.getField key with
  | some (.arr xs) => xs
  | _ => []

/-- Python truthiness of a decoded JSON value. -/
def Json.truthy : Json → Bool
  | .null => false
  | .bool b => b
  | .num n => n != 0
  | .str s => s != ""
  | .arr xs => !xs.isEmpty
  | .obj fs => !fs.isEmpty

/-- Python str() of a decoded JSON value.  Containers are abbreviated: no
claim inspects the rendered text of a container, and the abbreviation keeps
the brace characters that the code-shaped-snippet check of
generate_completion_summary looks for. -/
def pyToStr : Json → String
  | .str s => s
  | .num n => toString n
  | .bool b => if b then "True" else "False"
  | .null => "None"
  | .arr _ => "[...]"
  | .obj _ => "\x7b...\x7d"

/-- needle is a leading segment of hay (character lists). -/
def seqStartsWith : List Char → List Char → Bool
  | [], _ => true
  | _ :: _, [] => false
  | a :: as, b :: bs => a == b && seqStartsWith as bs

/-- needle occurs contiguously inside hay (character lists); this is the
Python substring test `needle in hay`. -/
def seqContains : List Char → List Char → Bool
  | needle, [] => seqStartsWith needle []
  | needle, hay@(_ :: rest) => seqStartsWith needle hay || seqContains needle rest

/-- Python substring test `needle in hay` on strings. -/
def strContains (hay needle : String) : Bool :=
  seqContains needle.toList hay.toList

/-- ASCII lowercasing of one character, the effect of Python str.lower on the
ASCII texts this code handles. -/
def asciiLower (c : Char) : Char :=
  if 'A' ≤ c && c ≤ 'Z' then Char.ofNat (c.toNat + 32) else c

/-- Python str.lower (ASCII range). -/
def lowerStr (s : String) : String :=
  String.mk (s.toList.map asciiLower)

theorem seqStartsWith_iff (n h : List Char) :
    seqStartsWith n h = true ↔ ∃ q, h = n ++ q := by
  induction n generalizing h with
  | nil =>
    simp [seqStartsWith]
  | cons a as ih =>
    cases h with
    | nil =>
      constructor
      · intro hh
        simp [seqStartsWith] at hh
      · rintro ⟨q, hq⟩
        simp at hq
    | cons b bs =>
      simp only [seqStartsWith, Bool.and_eq_true, beq_iff_eq, ih]
      constructor
      · rintro ⟨rfl, q, rfl⟩
        exact ⟨q, by simp⟩
      · rintro ⟨q, hq⟩
        simp only [List.cons_append, List.cons.injEq] at hq
        exact ⟨hq.1.symm, q, hq.2⟩

theorem seqContains_iff (n h : List Char) :
    seqContains n h = true ↔ ∃ p q, h = p ++ n ++ q := by
  induction h with
  | nil =>
    constructor
    · intro hn
      cases n with
      | nil => exact ⟨[], [], rfl⟩
      | cons a as => simp [seqContains, seqStartsWith] at hn
    · rintro ⟨p, q, hq⟩
      have h0 : p ++ n ++ q = [] := hq.symm
      rcases List.append_eq_nil.mp h0 with ⟨h1, rfl⟩
      rcases List.append_eq_nil.mp h1 with ⟨rfl, rfl⟩
      rfl
  | cons c cs ih =>
    simp only [seqContains, Bool.or_eq_true, seqStartsWith_iff, ih]
    constructor
    · rintro (⟨q, hq⟩ | ⟨p, q, hq⟩)
      · exact ⟨[], q, by simp [hq]⟩
      · exact ⟨c :: p, q, by simp [hq]⟩
    · rintro ⟨p, q, hq⟩
      cases p with
      | nil => exact Or.inl ⟨q, by simpa using hq⟩
      | cons d ds =>
        simp only [List.cons_append, List.cons.injEq] at hq
        exact Or.inr ⟨ds, q, hq.2⟩

theorem seqContains_trans {a b c : List Char}
    (hab : seqContains a b = true) (hbc : seqContains b c = true) :
    seqContains a c = true := by
  rw [seqContains_iff] at hab hbc ⊢
  obtain ⟨p, q, rfl⟩ := hab
  obtain ⟨r, s, rfl⟩ := hbc
  exact ⟨r ++ p, q ++ s, by simp⟩

/-! ## is_permission_request (app.py 1289-1315) -/

/-- The dangerous shell substrings of app.py line 1312. -/
def dangerPatterns : List String := ["rm ", "sudo", "chmod", "chown"]

/-- One iteration of the content-block loop of is_permission_request
(app.py 1303-1313).  An iteration returns True only through the Bash branch:
the Write and Edit branches fall through to the next block.  Python reads the
block type with no default; a missing or non-string value makes the comparison
with the string literal False, exactly as the empty default does here. -/
def isToolApprovalBlock (content : Json) : Bool :=
  jGetStr content "type" "" == "tool_use" &&
  (let tool_name := jGetStr content "name" ""
   (tool_name == "Bash" || tool_name == "Write" || tool_name == "Edit") &&
   (tool_name == "Bash" &&
    (let cmd := jGetStr (jGetD content "input" (Json.obj [])) "command" ""
     dangerPatterns.any (fun d => strContains cmd d))))

/-- is_permission_request (app.py 1289-1315).  The two top-level Python if
statements test the same event_type against two different literals, so they
are written as an if/else chain here. -/
def isPermissionRequest (event : Json) : Bool :=
  let event_type := jGetStr event "type" ""
  let subtype := jGetStr event "subtype" ""
  if event_type == "system" then
    strContains (lowerStr subtype) "permission" ||
    strContains (lowerStr subtype) "approval" ||
    subtype == "input_request"
  else if event_type == "assistant" then
    (jGetArr event "content").any isToolApprovalBlock
  else
    false

/-- An assistant event carrying a single tool_use block, in the top-level
shape that is_permission_request consumes: it reads the content list directly
from the event, not from a nested message object. -/
def mkToolUseEvent (tool : String) (input : Json) : Json :=
  Json.obj [("type", Json.str "assistant"),
            ("content", Json.arr [Json.obj [("type", Json.str "tool_use"),
                                            ("name", Json.str tool),
                                            ("input", input)]])]

/-- Claim C4: is_permission_request returns true for an assistant tool-use
event invoking Bash whose command contains "rm -rf", and false for the plain
command "ls -la". -/
theorem is_permission_request_bash_rm_rf (cmd : String)
    (h : strContains cmd "rm -rf" = true) :
    isPermissionRequest (mkToolUseEvent "Bash"
      (Json.obj [("command", Json.str cmd)])) = true ∧
    isPermissionRequest (mkToolUseEvent "Bash"
      (Json.obj [("command", Json.str "ls -la")])) = false := by
  constructor
  · have hrm : strContains cmd "rm " = true :=
      seqContains_trans (a := "rm ".toList) (b := "rm -rf".toList) (by decide) h
    simp [isPermissionRequest, mkToolUseEvent, isToolApprovalBlock, jGetStr, jGetD,
          jGetArr, Json.getField, lookupField, dangerPatterns, hrm]
  · decide

/-- Witness for C4 at the concrete command "rm -rf /tmp/x". -/
theorem is_permission_request_bash_rm_rf_witness :
    isPermissionRequest (mkToolUseEvent "Bash"
      (Json.obj [("command", Json.str "rm -rf /tmp/x")])) = true :=
  (is_permission_request_bash_rm_rf "rm -rf /tmp/x" (by decide)).1

/-- Claim C10: is_permission_request is false for every assistant tool-use
event whose tool is Write or Edit, regardless of the tool input: the
dangerous-pattern check of app.py 1310-1313 applies only to Bash. -/
theorem is_permission_request_write_edit_false (tool : String) (input : Json)
    (h : tool = "Write" ∨ tool = "Edit") :
    isPermissionRequest (mkToolUseEvent tool input) = false := by
  rcases h with rfl | rfl <;> rfl

/-- Witness for C10: a Write of /etc/passwd does not trigger the approval
rendezvous. -/
theorem is_permission_request_write_edit_false_witness :
    isPermissionRequest (mkToolUseEvent "Write"
      (Json.obj [("file_path", Json.str "/etc/passwd"),
                 ("content", Json.str "x")])) = false :=
  is_permission_request_write_edit_false "Write"
    (Json.obj [("file_path", Json.str "/etc/passwd"),
               ("content", Json.str "x")]) (Or.inl rfl)

/-! ## add_notification (app.py 191-209) -/

/-- One notification record (app.py 195-203).  The uuid and timestamp are
opaque inputs here. -/
structure Notification where
  id : String
  title : String
  message : String
  notification_type : String
  job_id : Option String
  read : Bool
  created_at : String

/-- add_notification (app.py 191-209): the freshly built record is inserted
at index 0 and the list is truncated to its first 100 entries when it exceeds
100. -/
def addNotification (fresh : Notification) (notifications : List Notification) :
    List Notification :=
  let inserted := fresh :: notifications
  if inserted.length > 100 then inserted.take 100 else inserted

/-- Claim C9: after add_notification the list holds at most 100 entries, the
new record is at index 0, and when the list already held 100 entries the
oldest (last) entry is dropped. -/
theorem add_notification_bounded_newest_first (fresh : Notification)
    (l : List Notification) :
    (addNotification fresh l).length ≤ 100 ∧
    (addNotification fresh l).head? = some fresh ∧
    (l.length = 100 → addNotification fresh l = fresh :: l.dropLast) := by
  unfold addNotification
  by_cases h : (fresh :: l).length > 100
  · simp only [h, if_pos]
    refine ⟨?_, ?_, ?_⟩
    · exact List.length_take_le 100 (fresh :: l)
    · show (fresh :: l.take 99).head? = some fresh
      rfl
    · intro h100
      show fresh :: l.take 99 = fresh :: l.dropLast
      rw [List.dropLast_eq_take, h100]
  · simp only [h, if_neg, not_false_iff]
    have hlen : l.length + 1 ≤ 100 := by
      simpa using Nat.le_of_not_lt h
    refine ⟨by simpa using hlen, rfl, ?_⟩
    intro h100
    omega

/-- Witness for C9 at a list that already holds exactly 100 entries. -/
theorem add_notification_bounded_newest_first_witness :
    addNotification ⟨"i", "t", "m", "info", none, false, "now"⟩
        (List.replicate 100 ⟨"o", "t", "m", "info", none, true, "then"⟩) =
      ⟨"i", "t", "m", "info", none, false, "now"⟩ ::
        (List.replicate 100
          (⟨"o", "t", "m", "info", none, true, "then"⟩ : Notification)).dropLast :=
  (add_notification_bounded_newest_first _ _).2.2 (by simp)

/-! ## Job statuses and the job state machine

The status strings stored in active_jobs: "queued" and "pending_approval" by
execute_claude (app.py 1036-1044, 1012-1021), "queued" again by approve_job
(app.py 1103), "running", "completed", "timeout" and "error" by
run_claude_code (app.py 845-935). -/

inductive JobStatus where
  | queued
  | pending_approval
  | running
  | completed
  | timeout
  | error
deriving DecidableEq

/-- The statuses from which a job never leaves run_claude_code again on its
normal paths. -/
def statusTerminal : JobStatus → Bool
  | .completed => true
  | .timeout => true
  | .error => true
  | _ => false

def optTerminal : Option JobStatus → Bool
  | none => false
  | some s => statusTerminal s

/-- Every observable status transition of one job id, gathered from
execute_claude, approve_job and run_claude_code.  none is the absent job.
lateFailure is the path where run_claude_code commits the completed update
and then raises while building the notification summary (a non-object JSON
stdout, or a JSON object whose result value is neither a string nor a list,
app.py 893-903): the except handler then overwrites the status with error. -/
inductive JobStep : Option JobStatus → Option JobStatus → Prop
  | createQueued : JobStep none (some .queued)
  | createPendingApproval : JobStep none (some .pending_approval)
  | approveJob : JobStep (some .pending_approval) (some .queued)
  | startRun : JobStep (some .queued) (some .running)
  | finishCompleted : JobStep (some .running) (some .completed)
  | finishTimeout : JobStep (some .running) (some .timeout)
  | finishError : JobStep (some .running) (some .error)
  | lateFailure : JobStep (some .completed) (some .error)

/-- The rank of a status in the order that claim C2 states: queued,
pending_approval, running, then the terminal statuses. -/
def claimRank : Option JobStatus → Nat
  | none => 0
  | some .queued => 1
  | some .pending_approval => 2
  | some .running => 3
  | some .completed => 4
  | some .timeout => 4
  | some .error => 4

/-- The rank of a status in the order the code actually follows:
pending_approval (when approval is required) comes before queued. -/
def codeRank : Option JobStatus → Nat
  | none => 0
  | some .pending_approval => 1
  | some .queued => 2
  | some .running => 3
  | some .completed => 4
  | some .timeout => 4
  | some .error => 4

/-- Counterexample to claim C2 as stated: approve_job (app.py 1103) moves a
job from pending_approval to queued, which is backward in the order that the
claim lists (queued before pending_approval). -/
theorem approve_job_moves_pending_to_queued_cex :
    JobStep (some .pending_approval) (some .queued) ∧
    claimRank (some .queued) < claimRank (some .pending_approval) :=
  ⟨JobStep.approveJob, by decide⟩

/-- Claim C2 as amended: job statuses move forward in the order
pending_approval, queued, running, terminal (never backward), and the first
terminal status a job reaches is reached from running.  The lateFailure step
may afterwards turn the terminal status completed into the terminal status
error; it stays at terminal rank. -/
theorem jobStep_monotone_codeOrder (s t : Option JobStatus) (h : JobStep s t) :
    codeRank s ≤ codeRank t ∧
    (optTerminal t = true ∧ optTerminal s = false → s = some .running) := by
  cases h <;> decide

/-- Witness for amended C2 at the queued-to-running step. -/
theorem jobStep_monotone_codeOrder_witness :
    codeRank (some .queued) ≤ codeRank (some .running) :=
  (jobStep_monotone_codeOrder (some .queued) (some .running) JobStep.startRun).1

/-! ## Commit-token extraction inside run_claude_code (app.py 884-890) -/

/-- A character matched by the character class of the commit regex:
lowercase a-f or a digit (the regex is case sensitive). -/
def isCommitHexChar (c : Char) : Bool :=
  (('a' ≤ c && c ≤ 'f') || ('0' ≤ c && c ≤ '9'))

/-- Length of the maximal run of commit-hex characters at the head of the
list. -/
def hexRunLen : List Char → Nat
  | [] => 0
  | c :: cs => if isCommitHexChar c then hexRunLen cs + 1 else 0

/-- Left-to-right non-overlapping greedy matching of the regex
\x5ba-f0-9\x5d\x7b7,40\x7d, as re.findall performs it: at each position a
match takes the longest available run up to 40 characters when at least 7 are
available, and scanning resumes after the match.  The fuel argument starts at
the length of the list; every step consumes at least one character, so the
fuel never runs out. -/
def findHexAux : Nat → List Char → List (List Char)
  | 0, _ => []
  | _ + 1, [] => []
  | fuel + 1, l@(_ :: cs) =>
    let n := hexRunLen l
    if 7 ≤ n then
      let t := min 40 n
      l.take t :: findHexAux fuel (l.drop t)
    else
      findHexAux fuel cs

/-- re.findall of the commit regex over a character list. -/
def findHexRuns (l : List Char) : List (List Char) :=
  findHexAux l.length l

/-- The commit extraction of run_claude_code (app.py 884-890): it runs only
when the output contains the substring commit case-insensitively; the matches
are deduplicated and capped at 5.  Python builds the deduplicated list from a
set whose iteration order is unspecified; List.dedup is one deterministic
choice of that order. -/
def extractCommits (output : String) : List String :=
  if strContains (lowerStr output) "commit" then
    (((findHexRuns output.toList).map fun cs => String.mk cs).dedup).take 5
  else
    []

theorem hexRunLen_le_length (l : List Char) : hexRunLen l ≤ l.length := by
  induction l with
  | nil => simp [hexRunLen]
  | cons c cs ih =>
    simp only [hexRunLen, List.length_cons]
    split
    · omega
    · omega

theorem hexRunLen_take_hex (l : List Char) (t : Nat) (ht : t ≤ hexRunLen l) :
    ∀ c ∈ l.take t, isCommitHexChar c = true := by
  induction l generalizing t with
  | nil => simp
  | cons a as ih =>
    cases t with
    | zero => simp
    | succ s =>
      simp only [hexRunLen] at ht
      by_cases ha : isCommitHexChar a = true
      · rw [if_pos ha] at ht
        intro c hc
        rcases List.mem_cons.mp (by simpa using hc) with rfl | hcs
        · exact ha
        · exact ih s (by omega) c hcs
      · rw [if_neg ha] at ht
        omega

/-- Soundness of the regex matcher: every match is 7 to 40 characters long,
consists of commit-hex characters, and occurs contiguously in the scanned
list. -/
theorem findHexAux_sound (fuel : Nat) (l : List Char) (m : List Char)
    (hm : m ∈ findHexAux fuel l) :
    (7 ≤ m.length ∧ m.length ≤ 40) ∧ (∀ c ∈ m, isCommitHexChar c = true) ∧
      ∃ p q, l = p ++ m ++ q := by
  induction fuel generalizing l with
  | zero => simp [findHexAux] at hm
  | succ fuel ih =>
    cases l with
    | nil => simp [findHexAux] at hm
    | cons a as =>
      simp only [findHexAux] at hm
      by_cases h7 : 7 ≤ hexRunLen (a :: as)
      · rw [if_pos h7] at hm
        have hlen : hexRunLen (a :: as) ≤ (a :: as).length :=
          hexRunLen_le_length (a :: as)
        have htmin : min 40 (hexRunLen (a :: as)) ≤ hexRunLen (a :: as) :=
          Nat.min_le_right _ _
        rcases List.mem_cons.mp hm with rfl | hrest
        · refine ⟨⟨?_, ?_⟩, ?_, ?_⟩
          · rw [List.length_take]
            omega
          · rw [List.length_take]
            omega
          · exact hexRunLen_take_hex (a :: as) _ htmin
          · exact ⟨[], (a :: as).drop (min 40 (hexRunLen (a :: as))), by simp⟩
        · obtain ⟨hlen7, hhex, p, q, hdec⟩ := ih _ hrest
          refine ⟨hlen7, hhex, (a :: as).take (min 40 (hexRunLen (a :: as))) ++ p, q, ?_⟩
          conv_lhs => rw [← List.take_append_drop (min 40 (hexRunLen (a :: as))) (a :: as)]
          rw [hdec]
          simp
      · rw [if_neg h7] at hm
        obtain ⟨hlen7, hhex, p, q, hdec⟩ := ih as hm
        exact ⟨hlen7, hhex, a :: p, q, by rw [hdec]; rfl⟩

theorem findHexRuns_sound (l : List Char) (m : List Char)
    (hm : m ∈ findHexRuns l) :
    (7 ≤ m.length ∧ m.length ≤ 40) ∧ (∀ c ∈ m, isCommitHexChar c = true) ∧
      ∃ p q, l = p ++ m ++ q :=
  findHexAux_sound l.length l m hm

/-! ## run_claude_code (app.py 845-935) -/

/-- How the subprocess.run call of app.py 865-872 ends: a completed process
with its return code and captured streams, the TimeoutExpired raise after the
600 second bound, or any other exception (for example a launch failure). -/
inductive SubprocOutcome where
  | completed (returncode : Int) (stdout stderr : String)
  | timedOut
  | raised (msg : String)

/-- The job fields that run_claude_code writes (timestamps omitted).  result
none / error none model the dictionary key being absent. -/
structure JobFields where
  status : JobStatus
  result : Option Json
  commits : List String
  error : Option String

/-- The terminal job record produced by run_claude_code (app.py 845-935).
jsonLoads stands for the Python json.loads library call, passed in as an
oracle: some v when stdout parses to the value v, none when parsing raises.

On the completed path the code first parses stdout (falling back to the
dictionary with stdout under the result key), extracts commits, and then
updates the job under the lock.  Two late raises are reproduced faithfully:
when the parsed value is not a dictionary, reading its result key raises
AttributeError after the status was already set to completed, and when the
result value is neither a string nor a list, slicing it for the notification
summary raises TypeError after the whole completed update was committed (a
list slices and extends without raising, so a list result completes); in both
raise cases the generic except handler then stores status error and the str
of the exception (the exact exception text is abbreviated here; no claim
depends on it). -/
def runClaudeCode (jsonLoads : String → Option Json) :
    SubprocOutcome → JobFields
  | .completed _returncode output error =>
    match jsonLoads output with
    | none =>
      -- json.JSONDecodeError: claude_response = a dict holding the raw stdout,
      -- so the stored result is the raw stdout text (app.py 879-882, 896)
      { status := .completed
        result := some (Json.str output)
        commits := extractCommits output
        error := if error = "" then none else some error }
    | some (Json.obj fields) =>
      match (lookupField fields "result").getD (Json.str output) with
      | Json.str s =>
        { status := .completed
          result := some (Json.str s)
          commits := extractCommits output
          error := if error = "" then none else some error }
      | Json.arr xs =>
        -- a list result value slices and extends without raising, so the
        -- notification path goes through and the completed update stands
        { status := .completed
          result := some (Json.arr xs)
          commits := extractCommits output
          error := if error = "" then none else some error }
      | v =>
        -- slicing any other non-string result for the notification raises
        -- TypeError after the completed update went through (app.py 902)
        { status := .error
          result := some v
          commits := extractCommits output
          error := some "TypeError" }
    | some _ =>
      -- calling get on a non-dictionary raises AttributeError in the middle
      -- of the locked update (app.py 896): result and commits stay unset
      { status := .error
        result := none
        commits := []
        error := some "AttributeError" }
  | .timedOut =>
    { status := .timeout
      result := none
      commits := []
      error := some "Execution timed out after 10 minutes" }
  | .raised msg =>
    { status := .error
      result := none
      commits := []
      error := some msg }

/-- Counterexample to claim C1 as stated: a subprocess that launches and runs
to completion with exit code 1 still gets status completed, because
run_claude_code never reads result.returncode (the empty stdout does not
parse as JSON, and the stderr text only fills the error field). -/
theorem run_claude_code_nonzero_exit_completed_cex :
    (runClaudeCode (fun _ => none)
        (.completed 1 "" "claude: task failed")).status = JobStatus.completed ∧
    (runClaudeCode (fun _ => none)
        (.completed 1 "" "claude: task failed")).error =
      some "claude: task failed" :=
  ⟨rfl, rfl⟩

/-- Claim C1 as amended: run_claude_code ignores the exit code entirely (the
job record is the same function of stdout and stderr for every return code);
the error terminal status is produced by the exception path (launch or
runtime failure), and the timeout status by the wall-clock timeout. -/
theorem run_claude_code_exit_code_ignored
    (jsonLoads : String → Option Json) (code1 code2 : Int)
    (output error msg : String) :
    runClaudeCode jsonLoads (.completed code1 output error) =
      runClaudeCode jsonLoads (.completed code2 output error) ∧
    (runClaudeCode jsonLoads (.raised msg)).status = JobStatus.error ∧
    (runClaudeCode jsonLoads .timedOut).status = JobStatus.timeout :=
  ⟨rfl, rfl, rfl⟩

/-- Claim C5: when stdout is not valid JSON (json.loads raises), the job
result is the raw stdout text verbatim and the status is completed, never
error. -/
theorem run_claude_code_nonjson_stdout_completed
    (jsonLoads : String → Option Json) (code : Int) (output error : String)
    (h : jsonLoads output = none) :
    (runClaudeCode jsonLoads (.completed code output error)).result =
      some (Json.str output) ∧
    (runClaudeCode jsonLoads (.completed code output error)).status =
      JobStatus.completed := by
  simp only [runClaudeCode]
  rw [h]
  exact ⟨rfl, rfl⟩

/-- Witness for C5 at a concrete non-JSON stdout. -/
theorem run_claude_code_nonjson_stdout_completed_witness :
    (runClaudeCode (fun _ => none)
        (.completed 0 "I fixed the typo." "")).result =
      some (Json.str "I fixed the typo.") :=
  (run_claude_code_nonjson_stdout_completed (fun _ => none) 0
    "I fixed the typo." "" rfl).1

/-- Counterexample to claim C6 as stated: the stdout abcdef01 holds a
commit-like hex token of 8 characters, yet the commits field stays empty,
because the extraction only runs when the output contains the substring
commit (app.py 886). -/
theorem run_claude_code_commits_gate_cex :
    findHexRuns "abcdef01".toList = ["abcdef01".toList] ∧
    (runClaudeCode (fun _ => none)
        (.completed 0 "abcdef01" "")).commits = [] := by
  constructor
  · decide
  · decide

theorem runClaudeCode_commits_cases
    (jsonLoads : String → Option Json) (code : Int) (output error : String) :
    (runClaudeCode jsonLoads (.completed code output error)).commits =
        extractCommits output ∨
      (runClaudeCode jsonLoads (.completed code output error)).commits = [] := by
  simp only [runClaudeCode]
  split <;>
    first
      | exact Or.inl rfl
      | exact Or.inr rfl
      | (split <;> exact Or.inl rfl)

theorem extractCommits_nodup (output : String) : (extractCommits output).Nodup := by
  unfold extractCommits
  split
  · exact List.Nodup.sublist (List.take_sublist _ _) (List.nodup_dedup _)
  · exact List.nodup_nil

theorem extractCommits_length_le (output : String) :
    (extractCommits output).length ≤ 5 := by
  unfold extractCommits
  split
  · exact List.length_take_le _ _
  · simp

theorem extractCommits_mem (output : String) (c : String)
    (hc : c ∈ extractCommits output) :
    (7 ≤ c.length ∧ c.length ≤ 40) ∧
      (∀ ch ∈ c.toList, isCommitHexChar ch = true) ∧
      ∃ p q, output.toList = p ++ c.toList ++ q := by
  unfold extractCommits at hc
  split at hc
  · have h1 : c ∈ ((findHexRuns output.toList).map fun cs => String.mk cs).dedup :=
      List.take_subset _ _ hc
    have h2 : c ∈ (findHexRuns output.toList).map fun cs => String.mk cs :=
      (List.mem_dedup).mp h1
    obtain ⟨cs, hcs, rfl⟩ := List.mem_map.mp h2
    obtain ⟨hlen, hhex, p, q, hdec⟩ := findHexRuns_sound output.toList cs hcs
    exact ⟨hlen, hhex, p, q, hdec⟩
  · simp at hc

theorem extractCommits_gate (output : String)
    (h : strContains (lowerStr output) "commit" = false) :
    extractCommits output = [] := by
  unfold extractCommits
  rw [h]
  rfl

/-- Claim C6 as amended: the commits field of a completed run is always
duplicate-free and capped at 5 entries, each entry is a token of 7 to 40
commit-hex characters occurring contiguously in stdout, and it is empty
whenever stdout does not contain the substring commit case-insensitively
(the extraction is gated on that substring). -/
theorem run_claude_code_commits_spec
    (jsonLoads : String → Option Json) (code : Int) (output error : String) :
    ((runClaudeCode jsonLoads (.completed code output error)).commits.Nodup ∧
      (runClaudeCode jsonLoads (.completed code output error)).commits.length ≤ 5) ∧
    (∀ c ∈ (runClaudeCode jsonLoads (.completed code output error)).commits,
      (7 ≤ c.length ∧ c.length ≤ 40) ∧
        (∀ ch ∈ c.toList, isCommitHexChar ch = true) ∧
        ∃ p q, output.toList = p ++ c.toList ++ q) ∧
    (strContains (lowerStr output) "commit" = false →
      (runClaudeCode jsonLoads (.completed code output error)).commits = []) := by
  rcases runClaudeCode_commits_cases jsonLoads code output error with hc | hc <;>
    rw [hc]
  · exact ⟨⟨extractCommits_nodup output, extractCommits_length_le output⟩,
      fun c hcm => extractCommits_mem output c hcm,
      fun hg => extractCommits_gate output hg⟩
  · exact ⟨⟨List.nodup_nil, by simp⟩, by simp, fun _ => rfl⟩

/-- Witness for amended C6 at a stdout that names a commit. -/
theorem run_claude_code_commits_spec_witness :
    (runClaudeCode (fun _ => none)
        (.completed 0 "Created commit abcdef0123." "")).commits.length ≤ 5 :=
  (run_claude_code_commits_spec (fun _ => none) 0
    "Created commit abcdef0123." "").1.2

/-! ## execute_claude (app.py 938-1069) -/

/-- How the supervisor call of app.py 960-979 ends.  requestError is any
requests.exceptions.RequestException, which covers connection errors and the
5 second timeout (requests.exceptions.Timeout is a RequestException).
Otherwise the HTTP response arrived with eval_response.ok, the decoded status
field, and the decoded requiresHumanApproval flag (its Python truthiness). -/
inductive SupervisorOutcome where
  | requestError
  | httpResponse (ok : Bool) (status : Option String)
      (requiresHumanApproval : Bool)

/-- What one execute_claude request did: the HTTP status it answered with,
the initial status of the job it created (none when no job was created), and
whether a run_claude_code background thread was started. -/
structure ExecuteEffect where
  httpStatus : Nat
  jobCreated : Option JobStatus
  threadStarted : Bool
deriving DecidableEq

/-- execute_claude (app.py 938-1069).  The empty prompt is rejected first
(400); a supervisor denial answers 403 with no job; requiresHumanApproval
creates the job as pending_approval without starting a thread; every other
outcome, including an unreachable supervisor, creates the job as queued and
starts run_claude_code in a background thread. -/
def executeClaude (prompt : String) (supervisor : SupervisorOutcome) :
    ExecuteEffect :=
  if prompt = "" then
    { httpStatus := 400, jobCreated := none, threadStarted := false }
  else
    match supervisor with
    | .requestError =>
      -- except requests.exceptions.RequestException: pass (app.py 1008-1010)
      { httpStatus := 200, jobCreated := some .queued, threadStarted := true }
    | .httpResponse ok status requiresHumanApproval =>
      if ok && status == some "denied" then
        { httpStatus := 403, jobCreated := none, threadStarted := false }
      else if ok && requiresHumanApproval then
        { httpStatus := 200, jobCreated := some .pending_approval,
          threadStarted := false }
      else
        { httpStatus := 200, jobCreated := some .queued, threadStarted := true }

/-- Claim C8: when the supervisor call raises (network error or the 5 second
timeout), execute_claude proceeds fail-open: the job is created queued and
background execution is started, instead of the request being rejected. -/
theorem execute_claude_supervisor_unreachable_fail_open (prompt : String)
    (h : prompt ≠ "") :
    executeClaude prompt .requestError =
      { httpStatus := 200, jobCreated := some .queued, threadStarted := true } := by
  unfold executeClaude
  rw [if_neg h]

/-- Witness for C8 at a concrete prompt. -/
theorem execute_claude_supervisor_unreachable_fail_open_witness :
    executeClaude "Fix typos in README.md" .requestError =
      { httpStatus := 200, jobCreated := some .queued, threadStarted := true } :=
  execute_claude_supervisor_unreachable_fail_open "Fix typos in README.md"
    (by decide)

/-! ## The streaming approval rendezvous (app.py 1336-1346, 1504-1539,
1597-1622) -/

/-- The per-session entry of streaming_sessions that the approval rendezvous
reads and writes (app.py 1340-1346); the process handle and the captured
claude_session_id play no role in the rendezvous and are omitted. -/
structure StreamSession where
  status : String
  approval_pending : Bool
  approval_response : Option Bool

/-- approve_stream_action (app.py 1597-1622) acting on one live session: the
decision is recorded only when an approval is pending (otherwise the endpoint
answers 400 and writes nothing); the 404 path is the session being absent
from the table, which cannot happen while the generator is still streaming.
The Bool result is the success flag of the endpoint. -/
def approveStreamAction (st : StreamSession) (approved : Bool) :
    StreamSession × Bool :=
  if st.approval_pending then
    ({ st with approval_response := some approved }, true)
  else
    (st, false)

/-- An external write that may land between two polls of the wait loop:
none when approve_stream_action was not called in that window. -/
def applyDecisionWrite (w : Option Bool) (st : StreamSession) : StreamSession :=
  match w with
  | some b => (approveStreamAction st b).1
  | none => st

/-- The poll loop of app.py 1521-1536.  Each iteration first absorbs any
approve_stream_action write that landed since the previous poll (writes tick),
then samples the decision slot under the lock: a set slot is consumed (the
pending flag is lowered, the slot is cleared) and the loop returns the
decision; an unset slot sleeps 0.5 s and polls again.  When the fuel (the
number of polls the 300 s window allows) runs out, the while-else branch
returns approved = False and emits the approval_timeout frame without
touching the session state; a write that lands in the final window, between
the last lock-guarded sample and the failing time check, is still absorbed
(approval_pending is still raised there, so approve_stream_action accepts
it) but is never consumed: it stays in the slot past the timeout.
Result: (final state, approved, timedOut). -/
def approvalWaitLoop :
    Nat → (Nat → Option Bool) → Nat → StreamSession →
      StreamSession × Bool × Bool
  | 0, writes, tick, st => (applyDecisionWrite (writes tick) st, false, true)
  | fuel + 1, writes, tick, st =>
    let st1 := applyDecisionWrite (writes tick) st
    match st1.approval_response with
    | some b =>
      ({ st1 with approval_pending := false, approval_response := none },
        b, false)
    | none => approvalWaitLoop fuel writes (tick + 1) st1

/-- The whole rendezvous of app.py 1504-1536 for one permission request: the
pending flag is raised, the approval_needed frame is emitted, and then the
poll loop runs with a 300 s / 0.5 s budget, that is 600 polls. -/
def approvalRendezvous (writes : Nat → Option Bool) (st : StreamSession) :
    StreamSession × Bool × Bool :=
  approvalWaitLoop 600 writes 0 { st with approval_pending := true }

theorem applyDecisionWrite_pending (w : Option Bool) (st : StreamSession) :
    (applyDecisionWrite w st).approval_pending = st.approval_pending := by
  cases w with
  | none => rfl
  | some b =>
    simp only [applyDecisionWrite, approveStreamAction]
    split <;> rfl

set_option maxRecDepth 4000 in
/-- Counterexample to claim C3 as stated: when no decision is ever posted,
the rendezvous times out (approval_timeout frame emitted, decision defaulted
to denial) but the pending-approval flag is still raised afterwards: the
while-else branch of app.py 1533-1536 never lowers it. -/
theorem approval_timeout_leaves_pending_cex :
    (approvalRendezvous (fun _ => none) ⟨"running", false, none⟩).2.2 = true ∧
    (approvalRendezvous (fun _ => none) ⟨"running", false, none⟩).2.1 = false ∧
    (approvalRendezvous (fun _ => none)
        ⟨"running", false, none⟩).1.approval_pending = true := by
  refine ⟨?_, ?_, ?_⟩ <;> decide

set_option maxRecDepth 4000 in
/-- Supporting evidence for the C3 amendment: the timeout can leave a stale
decision in the slot.  A write landing in the final window (after the last
poll, while approval_pending is still raised) is accepted by
approve_stream_action but never consumed: the rendezvous times out with the
decision slot still set. -/
theorem approval_timeout_can_leave_stale_decision :
    (approvalRendezvous (fun t => if t = 600 then some true else none)
        ⟨"running", false, none⟩).2.2 = true ∧
    (approvalRendezvous (fun t => if t = 600 then some true else none)
        ⟨"running", false, none⟩).1.approval_response = some true := by
  refine ⟨?_, ?_⟩ <;> decide

/-- Claim C3 as amended: when the wait loop ends because a decision was
posted, the decision slot is cleared back to unset and the pending-approval
flag is lowered before the next subprocess line is consumed; when it ends by
the 300 second timeout, the decision defaults to denial and an
approval_timeout frame is emitted, but the pending-approval flag is not
lowered (it remains raised) and the slot is not cleared either: a decision
posted in the final poll window remains stored as a stale decision. -/
theorem approval_wait_clears_slot (fuel : Nat) (writes : Nat → Option Bool)
    (tick : Nat) (st : StreamSession)
    (hp : st.approval_pending = true) :
    ((approvalWaitLoop fuel writes tick st).2.2 = false →
      (approvalWaitLoop fuel writes tick st).1.approval_pending = false ∧
      (approvalWaitLoop fuel writes tick st).1.approval_response = none) ∧
    ((approvalWaitLoop fuel writes tick st).2.2 = true →
      (approvalWaitLoop fuel writes tick st).2.1 = false ∧
      (approvalWaitLoop fuel writes tick st).1.approval_pending = true) := by
  induction fuel generalizing tick st with
  | zero =>
    refine ⟨?_, ?_⟩
    · intro habs
      simp [approvalWaitLoop] at habs
    · intro _
      refine ⟨rfl, ?_⟩
      show (applyDecisionWrite (writes tick) st).approval_pending = true
      rw [applyDecisionWrite_pending]
      exact hp
  | succ fuel ih =>
    have hp1 : (applyDecisionWrite (writes tick) st).approval_pending = true := by
      rw [applyDecisionWrite_pending]
      exact hp
    simp only [approvalWaitLoop]
    cases hres : (applyDecisionWrite (writes tick) st).approval_response with
    | some b =>
      refine ⟨fun _ => ⟨rfl, rfl⟩, fun habs => ?_⟩
      simp at habs
    | none =>
      exact ih (tick + 1) (applyDecisionWrite (writes tick) st) hp1

/-- Witness for amended C3: a decision posted before the second poll is
consumed, the slot is cleared and the pending flag lowered. -/
theorem approval_wait_clears_slot_witness :
    (approvalWaitLoop 600 (fun t => if t = 1 then some true else none) 0
        ⟨"running", true, none⟩).1.approval_pending = false ∧
    (approvalWaitLoop 600 (fun t => if t = 1 then some true else none) 0
        ⟨"running", true, none⟩).1.approval_response = none :=
  (approval_wait_clears_slot 600 (fun t => if t = 1 then some true else none) 0
    ⟨"running", true, none⟩ rfl).1 (by decide)

/-! ## generate_completion_summary (app.py 1203-1286) -/

/-- Python path.split with the slash separator; never returns the empty
list. -/
def splitSlash : List Char → List (List Char)
  | [] => [[]]
  | c :: cs =>
    let rest := splitSlash cs
    if c = '/' then [] :: rest
    else (c :: rest.headD []) :: rest.tail

/-- The trailing path component, as the code takes it with split and index
-1. -/
def basename (p : String) : String :=
  String.mk ((splitSlash p.toList).getLastD [])

/-- The first whitespace-separated token of a bash command, as cmd.split()
index 0 takes it.  Python raises IndexError when the command is whitespace
only (split() of such a string is empty); that crash path is not exercised by
any claim and yields the empty string here. -/
def firstToken (s : String) : String :=
  String.mk ((s.toList.dropWhile Char.isWhitespace).takeWhile
    fun c => !c.isWhitespace)

/-- Python set.add on an insertion-ordered model of a set: Python set
iteration order is unspecified, insertion order is one deterministic
choice. -/
def setAdd (s : List String) (x : String) : List String :=
  if s.contains x then s else s ++ [x]

/-- Python set union (the left operand first, then the new elements of the
right operand, in the same insertion-order model). -/
def setUnion (a b : List String) : List String :=
  b.foldl setAdd a

/-- Python list(set(xs)) in the same insertion-order model: duplicates after
the first occurrence are dropped. -/
def dedupKeepFirst : List String → List String
  | [] => []
  | x :: xs => x :: (dedupKeepFirst xs).filter (fun y => y ≠ x)

/-- Python string slicing s up to index n (by code points). -/
def strTake (s : String) (n : Nat) : String :=
  String.mk (s.toList.take n)

/-- The accumulator of the event loop of generate_completion_summary
(app.py 1205-1244).  The errors list declared there is never filled or read
and is omitted. -/
structure CSAcc where
  files_modified : List String
  files_created : List String
  files_read : List String
  bash_commands : List String
  final_result : Option String

/-- One content block of an assistant event (app.py 1217-1237): Write fills
files_created, Edit files_modified, Read files_read, Bash appends the first
token of the command; every file name is reduced to its trailing path
component.  Non-dictionary blocks are skipped by the isinstance guard. -/
def csProcessBlock (acc : CSAcc) (content : Json) : CSAcc :=
  match content with
  | Json.obj _ =>
    if jGetStr content "type" "" == "tool_use" then
      let tool_name := jGetStr content "name" ""
      let tool_input := jGetD content "input" (Json.obj [])
      if tool_name == "Write" then
        let fp := jGetStr tool_input "file_path" ""
        if fp != "" then
          { acc with files_created := setAdd acc.files_created (basename fp) }
        else acc
      else if tool_name == "Edit" then
        let fp := jGetStr tool_input "file_path" ""
        if fp != "" then
          { acc with files_modified := setAdd acc.files_modified (basename fp) }
        else acc
      else if tool_name == "Read" then
        let fp := jGetStr tool_input "file_path" ""
        if fp != "" then
          { acc with files_read := setAdd acc.files_read (basename fp) }
        else acc
      else if tool_name == "Bash" then
        let cmd := jGetStr tool_input "command" ""
        if cmd != "" then
          { acc with bash_commands := acc.bash_commands ++ [firstToken cmd] }
        else acc
      else acc
    else acc
  | _ => acc

/-- The final_result update of a result event (app.py 1239-1244): for a
dictionary the text key (with the str rendering of the whole dictionary as
default), otherwise the str rendering when truthy and None when falsy.  A
non-string text value leads Python into type errors further down; it is
rendered to its str form here and is not exercised by any claim. -/
def csResultValue (result : Json) : Option String :=
  match result with
  | Json.obj fields =>
    some (match lookupField fields "text" with
          | some (Json.str s) => s
          | some v => pyToStr v
          | none => pyToStr result)
  | r => if r.truthy then some (pyToStr r) else none

/-- One event of the loop of app.py 1212-1244.  An assistant event walks the
content blocks of its message (falling back to the event itself when no
message key is present); a result event overwrites final_result. -/
def csProcessEvent (acc : CSAcc) (event : Json) : CSAcc :=
  let event_type := jGetStr event "type" ""
  if event_type == "assistant" then
    let message := jGetD event "message" event
    (jGetArr message "content").foldl csProcessBlock acc
  else if event_type == "result" then
    { acc with final_result := csResultValue (jGetD event "result" (Json.str "")) }
  else acc

/-- The return dictionary of generate_completion_summary (app.py 1281-1286). -/
structure CompletionSummary where
  text : String
  files_modified : List String
  files_read : List String
  commands_run : Nat
deriving DecidableEq

/-- Python str.join with a separator. -/
def joinSep (sep : String) : List String → String
  | [] => ""
  | [x] => x
  | x :: xs => x ++ sep ++ joinSep sep xs

/-- The code-shaped markers of app.py 1278; the braces are the significant
ones for the abbreviated container renderings of pyToStr. -/
def codeMarkers : List String :=
  ["\x7b", "\x7d", "def ", "function ", "import ", "const "]

/-- generate_completion_summary (app.py 1203-1286). -/
def generateCompletionSummary (all_events : List Json) : CompletionSummary :=
  let acc := all_events.foldl csProcessEvent ⟨[], [], [], [], none⟩
  let parts : List String := []
  let parts :=
    if !acc.files_modified.isEmpty || !acc.files_created.isEmpty then
      let all_files := setUnion acc.files_modified acc.files_created
      if all_files.length = 1 then
        parts ++ ["updated " ++ all_files.headD ""]
      else if all_files.length ≤ 3 then
        parts ++ ["updated " ++ joinSep ", " all_files]
      else
        parts ++ ["updated " ++ toString all_files.length ++ " files"]
    else parts
  let unique_cmds := dedupKeepFirst acc.bash_commands
  let parts :=
    if !unique_cmds.isEmpty then
      let parts :=
        if unique_cmds.contains "git" then parts ++ ["made git changes"]
        else parts
      let parts :=
        if unique_cmds.contains "npm" || unique_cmds.contains "yarn" then
          parts ++ ["ran package commands"]
        else parts
      if unique_cmds.contains "python" || unique_cmds.contains "pytest" then
        parts ++ ["ran Python scripts"]
      else parts
    else parts
  let parts :=
    if parts.isEmpty then
      if !acc.files_read.isEmpty then
        ["reviewed " ++ toString acc.files_read.length ++ " files"]
      else
        ["completed the task"]
    else parts
  let summary := "Claude has " ++ joinSep " and " parts ++ "."
  let summary :=
    match acc.final_result with
    | some fr =>
      if fr != "" && fr.length < 200 then
        if !(codeMarkers.any fun m => strContains fr m) then
          summary ++ " " ++ strTake fr 150
        else summary
      else summary
    | none => summary
  { text := summary
    files_modified := setUnion acc.files_modified acc.files_created
    files_read := acc.files_read
    commands_run := acc.bash_commands.length }

/-- Claim C7: generate_completion_summary is a pure function of its event
list (identical inputs give identical summaries), and the empty event list
yields the fixed fallback sentence with empty file lists and a zero command
count. -/
theorem generate_completion_summary_pure_and_empty :
    (∀ xs ys : List Json, xs = ys →
      generateCompletionSummary xs = generateCompletionSummary ys) ∧
    generateCompletionSummary [] =
      { text := "Claude has completed the task."
        files_modified := []
        files_read := []
        commands_run := 0 } := by
  refine ⟨fun xs ys h => by rw [h], ?_⟩
  decide

/-- Witness for C7: the purity part applied at the empty list, together with
the fallback summary of the empty list. -/
theorem generate_completion_summary_pure_and_empty_witness :
    generateCompletionSummary [] = generateCompletionSummary [] ∧
    generateCompletionSummary [] =
      { text := "Claude has completed the task."
        files_modified := []
        files_read := []
        commands_run := 0 } :=
  ⟨generate_completion_summary_pure_and_empty.1 [] [] rfl,
    generate_completion_summary_pure_and_empty.2⟩

end Assistant
